import Mathlib

/-!
Verification of the geofenced live-feed and polling engine of SnapScrapp
(frontend/src/App.js). The definitions below are a shallow embedding of the
functions around lines 4650-5130 of App.js: the haversine distance, the
radius filters, the fetch / poll-tick logic, the initial mark-seen effect and
the localStorage-backed registry initializers. JavaScript numbers are
modelled as real numbers; fallible operations (network fetch, JSON.parse)
are modelled with Option / Except.
-/

namespace SnapScrapp

/-- A listing as delivered by the posts endpoint; only the fields the
polling and filtering logic reads are modelled. -/
structure Post where
  id : String
  title : String
  category : String
  latitude : ℝ
  longitude : ℝ
  status : String

/-- A user location, `[latitude, longitude]` in the source. -/
abbrev Loc : Type := ℝ × ℝ

/-- JavaScript `Math.atan2 y x` on real inputs (the piecewise extension of
arctan to all four quadrants). -/
noncomputable def atan2 (y x : ℝ) : ℝ :=
  if 0 < x then Real.arctan (y / x)
  else if x < 0 then
    (if y < 0 then Real.arctan (y / x) - Real.pi else Real.arctan (y / x) + Real.pi)
  else
    (if 0 < y then Real.pi / 2 else if y < 0 then -(Real.pi / 2) else 0)

/-- `getDistance` from App.js lines 4758-4768: haversine great-circle
distance in kilometres between `(lat1, lon1)` and `(lat2, lon2)`, with
`R = 6371` and the local constants of the source inlined. -/
noncomputable def getDistance (lat1 lon1 lat2 lon2 : ℝ) : ℝ :=
  6371 *
    (2 * atan2
      (Real.sqrt
        (Real.sin ((lat2 - lat1) * Real.pi / 180 / 2) *
            Real.sin ((lat2 - lat1) * Real.pi / 180 / 2) +
          Real.cos (lat1 * Real.pi / 180) * Real.cos (lat2 * Real.pi / 180) *
            Real.sin ((lon2 - lon1) * Real.pi / 180 / 2) *
            Real.sin ((lon2 - lon1) * Real.pi / 180 / 2)))
      (Real.sqrt
        (1 -
          (Real.sin ((lat2 - lat1) * Real.pi / 180 / 2) *
              Real.sin ((lat2 - lat1) * Real.pi / 180 / 2) +
            Real.cos (lat1 * Real.pi / 180) * Real.cos (lat2 * Real.pi / 180) *
              Real.sin ((lon2 - lon1) * Real.pi / 180 / 2) *
              Real.sin ((lon2 - lon1) * Real.pi / 180 / 2)))))

theorem atan2_zero_one : atan2 0 1 = 0 := by
  simp [atan2, Real.arctan_zero]

theorem getDistance_self (lat lon : ℝ) : getDistance lat lon lat lon = 0 := by
  unfold getDistance
  simp [atan2_zero_one]

theorem getDistance_comm (lat1 lon1 lat2 lon2 : ℝ) :
    getDistance lat1 lon1 lat2 lon2 = getDistance lat2 lon2 lat1 lon1 := by
  unfold getDistance
  have hlat : (lat1 - lat2) * Real.pi / 180 / 2 = -((lat2 - lat1) * Real.pi / 180 / 2) := by
    ring
  have hlon : (lon1 - lon2) * Real.pi / 180 / 2 = -((lon2 - lon1) * Real.pi / 180 / 2) := by
    ring
  rw [hlat, hlon]
  simp only [Real.sin_neg]
  ring_nf

theorem one_lt_getDistance_pole : 1 < getDistance 0 0 90 0 := by
  unfold getDistance
  have h1 : ((90 : ℝ) - 0) * Real.pi / 180 / 2 = Real.pi / 4 := by ring
  have h2 : ((0 : ℝ) - 0) * Real.pi / 180 / 2 = 0 := by ring
  rw [h1, h2, Real.sin_pi_div_four, Real.sin_zero]
  simp only [mul_zero, add_zero]
  have hhalf : Real.sqrt 2 / 2 * (Real.sqrt 2 / 2) = 1 / 2 := by
    rw [div_mul_div_comm, Real.mul_self_sqrt (by norm_num : (0 : ℝ) ≤ 2)]
    norm_num
  rw [hhalf]
  have h14 : (1 : ℝ) - 1 / 2 = 1 / 2 := by norm_num
  rw [h14]
  have hpos : 0 < Real.sqrt (1 / 2) := Real.sqrt_pos.mpr (by norm_num)
  unfold atan2
  rw [if_pos hpos, div_self (ne_of_gt hpos), Real.arctan_one]
  have hpi : 3 < Real.pi := Real.pi_gt_three
  linarith

/-- An event raised through `showNotification` by the poll tick; the message
of the source is determined by the kind together with the title of the post,
and the id records which post the event is about. -/
inductive Event where
  | nearby (id title : String)
  | collected (id title : String)
deriving DecidableEq

/-- The slice of component state the polling and filtering logic reads and
writes: `posts` / `filteredPosts` (ItemFeedStore), `myPostIds`
(OwnedPostSet), `lastSeenPostIds` (SeenSet). -/
structure AppState where
  posts : List Post
  filteredPosts : List Post
  myPostIds : List String
  lastSeenPostIds : List String

open Classical

/-- `filterPostsByRadius` from App.js lines 4899-4905: with no location the
whole list is returned, otherwise posts within `radius` km are kept. -/
noncomputable def filterPostsByRadius (allPosts : List Post) (location : Option Loc)
    (radius : ℝ) : List Post :=
  match location with
  | none => allPosts
  | some loc =>
      allPosts.filter fun post =>
        decide (getDistance loc.1 loc.2 post.latitude post.longitude ≤ radius)

/-- `postsInRadius` from App.js lines 4784-4793: the memoized display list,
`filteredPosts` unchanged when the user location is unknown. -/
noncomputable def postsInRadius (userLocation : Option Loc) (filteredPosts : List Post)
    (radiusKm : ℝ) : List Post :=
  match userLocation with
  | none => filteredPosts
  | some loc =>
      filteredPosts.filter fun post =>
        decide (getDistance loc.1 loc.2 post.latitude post.longitude ≤ radiusKm)

/-- `fetchPosts` from App.js lines 4908-4925. `fetchResult` is the outcome of
the awaited `axios.get`: `some data` on success, `none` when the request
threw. On failure the catch block only logs and toasts, so the state is
returned unchanged; on success `posts` is replaced and `filteredPosts` is
geo-filtered when a user location is available. -/
noncomputable def fetchPosts (fetchResult : Option (List Post)) (userLocation : Option Loc)
    (radiusKm : ℝ) (st : AppState) : AppState :=
  match fetchResult with
  | none => st
  | some data =>
      { st with
        posts := data
        filteredPosts :=
          match userLocation with
          | some loc => filterPostsByRadius data (some loc) radiusKm
          | none => data }

/-- The per-post test of the nearby loop in `checkForUpdates` (App.js lines
5059-5081): not already seen, not an own post, within the fixed 1 km nearby
radius, and currently active. The membership tests read the tick-start
registries, exactly as the closure variables `lastSeenPostIds` and
`myPostIds` do in the source. -/
noncomputable def isNewNearby (loc : Loc) (seen my : List String) (post : Post) : Bool :=
  decide (post.id ∉ seen ∧ post.id ∉ my ∧
    getDistance loc.1 loc.2 post.latitude post.longitude ≤ 1 ∧ post.status = "active")

/-- The posts for which the nearby loop of one tick fires an event and marks
the id as seen; empty when the user location is unavailable, since the whole
loop is inside `if (userLocation)`. -/
noncomputable def newlySeenList (currentPosts : List Post) (userLocation : Option Loc)
    (st : AppState) : List Post :=
  match userLocation with
  | none => []
  | some loc => currentPosts.filter (isNewNearby loc st.lastSeenPostIds st.myPostIds)

/-- `currentPosts.find(p => p.id === myPostId)` followed by the
`myPost && myPost.status === 'collected'` test of App.js lines 5086-5087. -/
def isCollectedIn (currentPosts : List Post) (id : String) : Bool :=
  match currentPosts.find? (fun p => p.id == id) with
  | some p => p.status == "collected"
  | none => false

/-- The title used in the collected message, read off the found post. -/
def titleOf (currentPosts : List Post) (id : String) : String :=
  match currentPosts.find? (fun p => p.id == id) with
  | some p => p.title
  | none => ""

/-- The ids of the owned-posts loop of one tick that are observed as
collected; the loop iterates the tick-start `myPostIds`. -/
def collectedNowList (currentPosts : List Post) (st : AppState) : List String :=
  st.myPostIds.filter fun id => isCollectedIn currentPosts id

/-- `checkForUpdates` from App.js lines 5051-5107, as a function of the fetch
outcome and the tick-start state. On fetch failure the catch block only
logs: no event, no state change. On success: the nearby loop (guarded by
`if (userLocation)`) raises a nearby event for every new nearby active post
and appends its id to `lastSeenPostIds`; the owned-posts loop raises a
collected event for every owned id found with status collected and filters
it out of `myPostIds`; finally `posts` and `filteredPosts` are replaced by
the fetched list. -/
noncomputable def checkForUpdates (fetchResult : Option (List Post))
    (userLocation : Option Loc) (st : AppState) : AppState × List Event :=
  match fetchResult with
  | none => (st, [])
  | some currentPosts =>
      ({ posts := currentPosts
         filteredPosts := currentPosts
         myPostIds := st.myPostIds.filter fun id => !isCollectedIn currentPosts id
         lastSeenPostIds :=
           st.lastSeenPostIds ++ (newlySeenList currentPosts userLocation st).map fun p => p.id },
       ((newlySeenList currentPosts userLocation st).map fun p => Event.nearby p.id p.title) ++
         (collectedNowList currentPosts st).map fun id =>
           Event.collected id (titleOf currentPosts id))

/-- The effect of App.js lines 5116-5122: once a fetch has populated `posts`
while `lastSeenPostIds` is still empty, every current id is marked seen
without any event being raised. -/
def markInitialSeen (st : AppState) : AppState :=
  if 0 < st.posts.length ∧ st.lastSeenPostIds.length = 0 then
    { st with lastSeenPostIds := st.posts.map fun p => p.id }
  else st

/-- A sequence of poll ticks of the `setInterval(checkForUpdates, 30000)`
loop: each entry is the fetch outcome and the user location at that tick;
states thread through, events concatenate in order. -/
noncomputable def runTicks : List (Option (List Post) × Option Loc) → AppState →
    AppState × List Event
  | [], st => (st, [])
  | (fetch, loc) :: rest, st =>
      let first := checkForUpdates fetch loc st
      let later := runTicks rest first.1
      (later.1, first.2 ++ later.2)

/-- Whether some nearby event for `id` occurs in an event list. -/
def nearbyRaisedFor (evs : List Event) (id : String) : Prop :=
  ∃ t, Event.nearby id t ∈ evs

/-- How many collected events for `id` an event list holds. -/
def collectedCount (evs : List Event) (id : String) : Nat :=
  evs.countP fun e =>
    match e with
    | Event.collected i _ => i == id
    | _ => false

theorem checkForUpdates_none (loc : Option Loc) (st : AppState) :
    checkForUpdates none loc st = (st, []) := rfl

theorem checkForUpdates_some_seen (l : List Post) (loc : Option Loc) (st : AppState) :
    ((checkForUpdates (some l) loc st).1).lastSeenPostIds =
      st.lastSeenPostIds ++ (newlySeenList l loc st).map (fun p => p.id) := rfl

theorem checkForUpdates_some_my (l : List Post) (loc : Option Loc) (st : AppState) :
    ((checkForUpdates (some l) loc st).1).myPostIds =
      st.myPostIds.filter (fun id => !isCollectedIn l id) := rfl

theorem checkForUpdates_some_events (l : List Post) (loc : Option Loc) (st : AppState) :
    (checkForUpdates (some l) loc st).2 =
      ((newlySeenList l loc st).map fun p => Event.nearby p.id p.title) ++
        (collectedNowList l st).map (fun id => Event.collected id (titleOf l id)) := rfl

theorem runTicks_nil (st : AppState) : runTicks [] st = (st, []) := rfl

theorem runTicks_cons (fetch : Option (List Post)) (loc : Option Loc)
    (rest : List (Option (List Post) × Option Loc)) (st : AppState) :
    runTicks ((fetch, loc) :: rest) st =
      ((runTicks rest (checkForUpdates fetch loc st).1).1,
        (checkForUpdates fetch loc st).2 ++
          (runTicks rest (checkForUpdates fetch loc st).1).2) := rfl

theorem seen_subset_checkForUpdates (fetch : Option (List Post)) (loc : Option Loc)
    (st : AppState) :
    st.lastSeenPostIds ⊆ ((checkForUpdates fetch loc st).1).lastSeenPostIds := by
  cases fetch with
  | none => exact List.Subset.refl _
  | some l =>
      rw [checkForUpdates_some_seen]
      exact List.subset_append_left _ _

theorem seen_subset_runTicks (ticks : List (Option (List Post) × Option Loc))
    (st : AppState) :
    st.lastSeenPostIds ⊆ ((runTicks ticks st).1).lastSeenPostIds := by
  induction ticks generalizing st with
  | nil => exact List.Subset.refl _
  | cons tick rest ih =>
      obtain ⟨fetch, loc⟩ := tick
      rw [runTicks_cons]
      exact (seen_subset_checkForUpdates fetch loc st).trans (ih _)

theorem mem_newlySeenList (l : List Post) (loc : Option Loc) (st : AppState) (p : Post) :
    p ∈ newlySeenList l loc st ↔
      ∃ c, loc = some c ∧ p ∈ l ∧ p.id ∉ st.lastSeenPostIds ∧ p.id ∉ st.myPostIds ∧
        getDistance c.1 c.2 p.latitude p.longitude ≤ 1 ∧ p.status = "active" := by
  cases loc with
  | none => simp [newlySeenList]
  | some c =>
      simp only [newlySeenList, List.mem_filter, isNewNearby, decide_eq_true_eq,
        Option.some.injEq]
      constructor
      · rintro ⟨hp, h1, h2, h3, h4⟩
        exact ⟨c, rfl, hp, h1, h2, h3, h4⟩
      · rintro ⟨c', hc, hp, h1, h2, h3, h4⟩
        cases hc
        exact ⟨hp, h1, h2, h3, h4⟩

theorem nearby_mem_checkForUpdates_iff (l : List Post) (loc : Option Loc) (st : AppState)
    (id t : String) :
    Event.nearby id t ∈ (checkForUpdates (some l) loc st).2 ↔
      ∃ p ∈ newlySeenList l loc st, p.id = id ∧ p.title = t := by
  rw [checkForUpdates_some_events]
  simp only [List.mem_append, List.mem_map]
  constructor
  · rintro (⟨p, hp, heq⟩ | ⟨i, _, heq⟩)
    · cases heq
      exact ⟨p, hp, rfl, rfl⟩
    · cases heq
  · rintro ⟨p, hp, h1, h2⟩
    exact Or.inl ⟨p, hp, by rw [h1, h2]⟩

theorem nearby_not_raised_of_seen (fetch : Option (List Post)) (loc : Option Loc)
    (st : AppState) (id t : String) (h : id ∈ st.lastSeenPostIds) :
    Event.nearby id t ∉ (checkForUpdates fetch loc st).2 := by
  cases fetch with
  | none => simp [checkForUpdates_none]
  | some l =>
      rw [nearby_mem_checkForUpdates_iff]
      rintro ⟨p, hp, hid, -⟩
      rw [mem_newlySeenList] at hp
      obtain ⟨c, -, -, hseen, -⟩ := hp
      exact hseen (hid ▸ h)

theorem nearby_not_raised_runTicks (ticks : List (Option (List Post) × Option Loc))
    (st : AppState) (id t : String) (h : id ∈ st.lastSeenPostIds) :
    Event.nearby id t ∉ ((runTicks ticks st).2) := by
  induction ticks generalizing st with
  | nil => simp [runTicks_nil]
  | cons tick rest ih =>
      obtain ⟨fetch, loc⟩ := tick
      rw [runTicks_cons]
      simp only [List.mem_append, not_or]
      exact ⟨nearby_not_raised_of_seen fetch loc st id t h,
        ih _ (seen_subset_checkForUpdates fetch loc st h)⟩

theorem seen_subset_markInitialSeen (st : AppState) :
    st.lastSeenPostIds ⊆ (markInitialSeen st).lastSeenPostIds := by
  unfold markInitialSeen
  split
  · next hcond =>
      intro x hx
      have := List.length_eq_zero.mp hcond.2
      rw [this] at hx
      cases hx
  · exact List.Subset.refl _

/-- C1: once an id is in the SeenSet — however it got there — no later poll
tick raises a nearby event for it, and the SeenSet only ever grows: neither
a tick nor the initial mark-seen effect removes an id. -/
theorem C1_seen_monotone_no_repeat (ticks : List (Option (List Post) × Option Loc))
    (st : AppState) (id t : String) (h : id ∈ st.lastSeenPostIds) :
    st.lastSeenPostIds ⊆ ((runTicks ticks st).1).lastSeenPostIds ∧
      st.lastSeenPostIds ⊆ (markInitialSeen st).lastSeenPostIds ∧
      Event.nearby id t ∉ ((runTicks ticks st).2) :=
  ⟨seen_subset_runTicks ticks st, seen_subset_markInitialSeen st,
    nearby_not_raised_runTicks ticks st id t h⟩

/-- Witness for C1 at a concrete input: seen id `a`, one tick whose fetch
returns a post with id `a` right at the user location. -/
theorem C1_seen_monotone_no_repeat_witness :
    "a" ∈ ["a"] ∧
      (["a"] : List String) ⊆
        ((runTicks [(some [⟨"a", "chair", "general", 0, 0, "active"⟩], some (0, 0))]
          ⟨[], [], [], ["a"]⟩).1).lastSeenPostIds ∧
      (["a"] : List String) ⊆ (markInitialSeen ⟨[], [], [], ["a"]⟩).lastSeenPostIds ∧
      Event.nearby "a" "chair" ∉
        ((runTicks [(some [⟨"a", "chair", "general", 0, 0, "active"⟩], some (0, 0))]
          ⟨[], [], [], ["a"]⟩).2) := by
  refine ⟨by decide, ?_⟩
  exact C1_seen_monotone_no_repeat _ ⟨[], [], [], ["a"]⟩ "a" "chair" (by decide)

/-- C4: a failed refresh leaves the stored post lists unchanged in
`fetchPosts`, makes the poll tick raise no event and mutate nothing, and the
failed tick simply drops out of the run — the following ticks proceed as if
it had not happened, at their own scheduled turns. -/
theorem C4_failed_refresh_is_skip (loc : Option Loc) (r : ℝ) (st : AppState)
    (rest : List (Option (List Post) × Option Loc)) :
    fetchPosts none loc r st = st ∧
      checkForUpdates none loc st = (st, []) ∧
      runTicks ((none, loc) :: rest) st = runTicks rest st := by
  refine ⟨rfl, rfl, ?_⟩
  rw [runTicks_cons, checkForUpdates_none]
  simp

/-- C7: the haversine distance of the source is zero on identical points and
symmetric in its two points. -/
theorem C7_getDistance_self_comm (lat1 lon1 lat2 lon2 : ℝ) :
    getDistance lat1 lon1 lat1 lon1 = 0 ∧
      getDistance lat1 lon1 lat2 lon2 = getDistance lat2 lon2 lat1 lon1 :=
  ⟨getDistance_self lat1 lon1, getDistance_comm lat1 lon1 lat2 lon2⟩

/-- C6: for a fixed (optional) center, raising the radius never drops a post
from the radius filter. -/
theorem C6_radius_filter_monotone (items : List Post) (location : Option Loc)
    (r1 r2 : ℝ) (h : r1 ≤ r2) :
    filterPostsByRadius items location r1 ⊆ filterPostsByRadius items location r2 := by
  cases location with
  | none => exact List.Subset.refl _
  | some c =>
      intro p hp
      simp only [filterPostsByRadius, List.mem_filter, decide_eq_true_eq] at hp ⊢
      exact ⟨hp.1, le_trans hp.2 h⟩

/-- Witness for C6 at a concrete input. -/
theorem C6_radius_filter_monotone_witness :
    (0 : ℝ) ≤ 1 ∧
      filterPostsByRadius [] (some (0, 0)) 0 ⊆ filterPostsByRadius [] (some (0, 0)) 1 :=
  ⟨by norm_num, C6_radius_filter_monotone [] (some (0, 0)) 0 1 (by norm_num)⟩

/-- C8: with no user location, both radius filters of the source return the
post list unchanged instead of hiding everything. -/
theorem C8_no_location_no_filter (allPosts filteredPosts : List Post) (radius : ℝ) :
    filterPostsByRadius allPosts none radius = allPosts ∧
      postsInRadius none filteredPosts radius = filteredPosts :=
  ⟨rfl, rfl⟩

theorem seen_mem_checkForUpdates_iff (l : List Post) (loc : Option Loc) (st : AppState)
    (id : String) :
    id ∈ ((checkForUpdates (some l) loc st).1).lastSeenPostIds ↔
      id ∈ st.lastSeenPostIds ∨ ∃ p ∈ newlySeenList l loc st, p.id = id := by
  rw [checkForUpdates_some_seen]
  simp [List.mem_append, List.mem_map]

theorem nearbyRaisedFor_checkForUpdates_iff (l : List Post) (loc : Option Loc)
    (st : AppState) (id : String) :
    nearbyRaisedFor ((checkForUpdates (some l) loc st).2) id ↔
      ∃ p ∈ newlySeenList l loc st, p.id = id := by
  unfold nearbyRaisedFor
  constructor
  · rintro ⟨t, ht⟩
    rw [nearby_mem_checkForUpdates_iff] at ht
    obtain ⟨p, hp, h1, -⟩ := ht
    exact ⟨p, hp, h1⟩
  · rintro ⟨p, hp, h1⟩
    exact ⟨p.title, (nearby_mem_checkForUpdates_iff l loc st id p.title).mpr ⟨p, hp, h1, rfl⟩⟩

/-- C9: on every tick with a location fix, an id enters the SeenSet exactly
when a nearby event is raised for it on that tick (first conjunct,
unconditional); hence an id all of whose fetched carriers lie beyond the
1 km nearby radius is neither marked seen nor notified on such a tick
(second conjunct), and on any later tick where a fetched post with that id
is active, unowned, still unseen and within the radius, the nearby event
does fire and the id is then marked (third conjunct). -/
theorem C9_marked_seen_iff_raised (l : List Post) (c : Loc) (st : AppState)
    (id : String) (p : Post) :
    (id ∈ ((checkForUpdates (some l) (some c) st).1).lastSeenPostIds ↔
      id ∈ st.lastSeenPostIds ∨
        nearbyRaisedFor ((checkForUpdates (some l) (some c) st).2) id) ∧
    ((∀ q ∈ l, q.id = id → ¬ getDistance c.1 c.2 q.latitude q.longitude ≤ 1) →
      id ∉ st.lastSeenPostIds →
      id ∉ ((checkForUpdates (some l) (some c) st).1).lastSeenPostIds ∧
        ¬ nearbyRaisedFor ((checkForUpdates (some l) (some c) st).2) id) ∧
    (p ∈ l → p.id ∉ st.lastSeenPostIds → p.id ∉ st.myPostIds →
      getDistance c.1 c.2 p.latitude p.longitude ≤ 1 → p.status = "active" →
      Event.nearby p.id p.title ∈ (checkForUpdates (some l) (some c) st).2 ∧
        p.id ∈ ((checkForUpdates (some l) (some c) st).1).lastSeenPostIds) := by
  refine ⟨?_, ?_, ?_⟩
  · rw [seen_mem_checkForUpdates_iff, nearbyRaisedFor_checkForUpdates_iff]
  · intro hfar hunseen
    constructor
    · rw [seen_mem_checkForUpdates_iff]
      rintro (h | ⟨q, hq, hqid⟩)
      · exact hunseen h
      · rw [mem_newlySeenList] at hq
        obtain ⟨c', hc', hql, -, -, hdist, -⟩ := hq
        obtain rfl : c' = c := (Option.some_inj.mp hc').symm
        exact hfar q hql hqid hdist
    · rw [nearbyRaisedFor_checkForUpdates_iff]
      rintro ⟨q, hq, hqid⟩
      rw [mem_newlySeenList] at hq
      obtain ⟨c', hc', hql, -, -, hdist, -⟩ := hq
      obtain rfl : c' = c := (Option.some_inj.mp hc').symm
      exact hfar q hql hqid hdist
  · intro hp hseen hmy hdist hactive
    have hmem : p ∈ newlySeenList l (some c) st :=
      (mem_newlySeenList l (some c) st p).mpr ⟨c, rfl, hp, hseen, hmy, hdist, hactive⟩
    exact ⟨(nearby_mem_checkForUpdates_iff l (some c) st p.id p.title).mpr ⟨p, hmem, rfl, rfl⟩,
      (seen_mem_checkForUpdates_iff l (some c) st p.id).mpr (Or.inr ⟨p, hmem, rfl⟩)⟩

theorem collected_event_raised (l : List Post) (loc : Option Loc) (st : AppState)
    (id : String) (h1 : id ∈ st.myPostIds) (h2 : isCollectedIn l id = true) :
    Event.collected id (titleOf l id) ∈ (checkForUpdates (some l) loc st).2 := by
  have hmem : id ∈ collectedNowList l st := List.mem_filter.mpr ⟨h1, h2⟩
  rw [checkForUpdates_some_events]
  exact List.mem_append_right _ (List.mem_map.mpr ⟨id, hmem, rfl⟩)

/-- C10: the `if (userLocation)` guard encloses only the nearby loop, so the
collected check of a successful tick fires for an owned id observed as
collected whether the location is unavailable or any fix is present. -/
theorem C10_collected_check_runs_without_location (l : List Post) (st : AppState)
    (c : Loc) (id : String) (h1 : id ∈ st.myPostIds) (h2 : isCollectedIn l id = true) :
    Event.collected id (titleOf l id) ∈ (checkForUpdates (some l) none st).2 ∧
      Event.collected id (titleOf l id) ∈ (checkForUpdates (some l) (some c) st).2 :=
  ⟨collected_event_raised l none st id h1 h2,
    collected_event_raised l (some c) st id h1 h2⟩

/-- C3 (amended): from empty registries, a first successful non-empty fetch
baselines every fetched id with no event only on the paths whose nearby step
stays silent: the mount-time `fetchPosts` followed by the mark-seen effect
(first two conjuncts: all ids recorded, and no later tick can raise a nearby
event for a baseline id), and a poll-tick fetch with no location fix, whose
event list is empty and after which the effect likewise baselines all
fetched ids (last two conjuncts). A first fetch performed by a tick with a
location fix may instead raise nearby events and seed the SeenSet with only
the notified ids; see the counterexample. -/
theorem C3_first_fetch_baseline (st : AppState) (posts0 : List Post) (loc : Option Loc)
    (r : ℝ) (ticks : List (Option (List Post) × Option Loc)) (id t : String)
    (h1 : st.lastSeenPostIds = []) (hmy : st.myPostIds = []) (h2 : posts0 ≠ [])
    (h3 : id ∈ posts0.map (fun p => p.id)) :
    (markInitialSeen (fetchPosts (some posts0) loc r st)).lastSeenPostIds =
      posts0.map (fun p => p.id) ∧
      Event.nearby id t ∉
        ((runTicks ticks (markInitialSeen (fetchPosts (some posts0) loc r st))).2) ∧
      (checkForUpdates (some posts0) none st).2 = [] ∧
      (markInitialSeen ((checkForUpdates (some posts0) none st).1)).lastSeenPostIds =
        posts0.map (fun p => p.id) := by
  have hposts : (fetchPosts (some posts0) loc r st).posts = posts0 := rfl
  have hseen1 : (fetchPosts (some posts0) loc r st).lastSeenPostIds =
      st.lastSeenPostIds := rfl
  have hcond : 0 < (fetchPosts (some posts0) loc r st).posts.length ∧
      (fetchPosts (some posts0) loc r st).lastSeenPostIds.length = 0 := by
    constructor
    · rw [hposts]
      exact List.length_pos.mpr h2
    · rw [hseen1, h1]
      rfl
  have hmark : (markInitialSeen (fetchPosts (some posts0) loc r st)).lastSeenPostIds =
      posts0.map (fun p => p.id) := by
    unfold markInitialSeen
    rw [if_pos hcond]
    simp [hposts]
  have htickseen : ((checkForUpdates (some posts0) none st).1).lastSeenPostIds = [] := by
    rw [checkForUpdates_some_seen]
    simp [newlySeenList, h1]
  have htickposts : ((checkForUpdates (some posts0) none st).1).posts = posts0 := rfl
  refine ⟨hmark, ?_, ?_, ?_⟩
  · apply nearby_not_raised_runTicks
    rw [hmark]
    exact h3
  · rw [checkForUpdates_some_events]
    simp [newlySeenList, collectedNowList, hmy]
  · unfold markInitialSeen
    rw [if_pos ⟨by rw [htickposts]; exact List.length_pos.mpr h2, by rw [htickseen]; rfl⟩]
    simp [htickposts]

theorem collectedCount_append (a b : List Event) (id : String) :
    collectedCount (a ++ b) id = collectedCount a id + collectedCount b id :=
  List.countP_append _ a b

theorem collectedCount_nil (id : String) : collectedCount [] id = 0 := rfl

theorem collectedCount_nearbyMap (ps : List Post) (id : String) :
    collectedCount (ps.map fun p => Event.nearby p.id p.title) id = 0 := by
  unfold collectedCount
  rw [List.countP_map]
  exact List.countP_eq_zero.mpr fun a _ => by simp [Function.comp]

theorem collectedCount_collectedMap (l : List Post) (ids : List String) (id : String) :
    collectedCount (ids.map fun i => Event.collected i (titleOf l i)) id = ids.count id := by
  unfold collectedCount
  rw [List.countP_map]
  rfl

theorem collectedCount_checkForUpdates (l : List Post) (loc : Option Loc) (st : AppState)
    (id : String) :
    collectedCount ((checkForUpdates (some l) loc st).2) id =
      (collectedNowList l st).count id := by
  rw [checkForUpdates_some_events, collectedCount_append, collectedCount_nearbyMap,
    collectedCount_collectedMap]
  exact Nat.zero_add _

theorem not_mem_myPostIds_after_collected (l : List Post) (loc : Option Loc)
    (st : AppState) (id : String) (h2 : isCollectedIn l id = true) :
    id ∉ ((checkForUpdates (some l) loc st).1).myPostIds := by
  rw [checkForUpdates_some_my]
  intro hmem
  have hfalse := (List.mem_filter.mp hmem).2
  rw [h2] at hfalse
  cases hfalse

theorem myPostIds_gone_runTicks (ticks : List (Option (List Post) × Option Loc))
    (st : AppState) (id : String) (h : id ∉ st.myPostIds) :
    collectedCount ((runTicks ticks st).2) id = 0 ∧
      id ∉ ((runTicks ticks st).1).myPostIds := by
  induction ticks generalizing st with
  | nil => exact ⟨rfl, h⟩
  | cons tick rest ih =>
      obtain ⟨fetch, loc⟩ := tick
      rw [runTicks_cons, collectedCount_append]
      cases fetch with
      | none =>
          rw [checkForUpdates_none]
          simpa [collectedCount_nil] using ih st h
      | some l =>
          have hnot : id ∉ collectedNowList l st := fun hc =>
            h (List.mem_of_mem_filter hc)
          have hnot' : id ∉ ((checkForUpdates (some l) loc st).1).myPostIds := by
            rw [checkForUpdates_some_my]
            exact fun hc => h (List.mem_of_mem_filter hc)
          rw [collectedCount_checkForUpdates, List.count_eq_zero.mpr hnot]
          simpa using ih _ hnot'

theorem collectedCount_runTicks_le_one (ticks : List (Option (List Post) × Option Loc))
    (st : AppState) (id : String) (h : st.myPostIds.Nodup) :
    collectedCount ((runTicks ticks st).2) id ≤ 1 := by
  induction ticks generalizing st with
  | nil => simp [runTicks_nil, collectedCount_nil]
  | cons tick rest ih =>
      obtain ⟨fetch, loc⟩ := tick
      rw [runTicks_cons, collectedCount_append]
      cases fetch with
      | none =>
          rw [checkForUpdates_none]
          simpa [collectedCount_nil] using ih st h
      | some l =>
          rw [collectedCount_checkForUpdates]
          by_cases hmem : id ∈ collectedNowList l st
          · have hcol : isCollectedIn l id = true := (List.mem_filter.mp hmem).2
            have hgone := not_mem_myPostIds_after_collected l loc st id hcol
            have hrest := (myPostIds_gone_runTicks rest _ id hgone).1
            rw [hrest]
            have hle : (collectedNowList l st).count id ≤ 1 :=
              List.nodup_iff_count_le_one.mp (h.filter _) id
            omega
          · rw [List.count_eq_zero.mpr hmem]
            have hnd' : ((checkForUpdates (some l) loc st).1).myPostIds.Nodup := by
              rw [checkForUpdates_some_my]
              exact h.filter _
            simpa using ih _ hnd'

/-- C2: across any run of ticks from a duplicate-free OwnedPostSet, at most
one collected event is ever raised per id; within the tick that observes an
owned id as collected, the event is raised and the id leaves the
OwnedPostSet in the same tick; and when the id is absent from the fetched
feed, its ownership is untouched and no collected event fires for it. -/
theorem C2_collected_once_and_released (ticks : List (Option (List Post) × Option Loc))
    (st : AppState) (id : String) (l : List Post) (loc : Option Loc)
    (hnd : st.myPostIds.Nodup) :
    collectedCount ((runTicks ticks st).2) id ≤ 1 ∧
      (isCollectedIn l id = true → id ∈ st.myPostIds →
        Event.collected id (titleOf l id) ∈ (checkForUpdates (some l) loc st).2 ∧
          id ∉ ((checkForUpdates (some l) loc st).1).myPostIds) ∧
      (l.find? (fun p => p.id == id) = none →
        ((id ∈ ((checkForUpdates (some l) loc st).1).myPostIds ↔ id ∈ st.myPostIds) ∧
          collectedCount ((checkForUpdates (some l) loc st).2) id = 0)) := by
  refine ⟨collectedCount_runTicks_le_one ticks st id hnd, ?_, ?_⟩
  · intro h2 h1
    exact ⟨collected_event_raised l loc st id h1 h2,
      not_mem_myPostIds_after_collected l loc st id h2⟩
  · intro hfind
    have hcol : isCollectedIn l id = false := by
      unfold isCollectedIn
      rw [hfind]
    constructor
    · rw [checkForUpdates_some_my]
      simp [List.mem_filter, hcol]
    · rw [collectedCount_checkForUpdates]
      refine List.count_eq_zero.mpr fun hc => ?_
      have := (List.mem_filter.mp hc).2
      rw [hcol] at this
      cases this

/-- A sample active listing at the origin, for concrete evaluations. -/
noncomputable def pActive : Post := ⟨"p1", "chair", "general", 0, 0, "active"⟩

/-- A sample collected listing, for concrete evaluations. -/
noncomputable def pCollected : Post := ⟨"m1", "sofa", "general", 0, 0, "collected"⟩

/-- A sample active listing far from the origin (at the pole), for concrete
evaluations of the beyond-radius case. -/
noncomputable def pFar : Post := ⟨"f1", "table", "general", 90, 0, "active"⟩

/-- The origin as a sample user location. -/
noncomputable def locO : Loc := (0, 0)

/-- A sample user location right at the far listing. -/
noncomputable def locN : Loc := (90, 0)

/-- A fresh state: nothing fetched, nothing owned, nothing seen. -/
def st0 : AppState := ⟨[], [], [], []⟩

/-- A state owning the post with id `m1`. -/
def stOwner : AppState := ⟨[], [], ["m1"], []⟩

/-- Witness for C9 at concrete inputs: a fresh state whose only fetched post
sits at the pole. At the origin the post is beyond 1 km, so its id is
neither marked nor notified (and the unconditional iff holds for an
arbitrary id); at a fix right at the post, the event fires and the id is
marked. -/
theorem C9_marked_seen_iff_raised_witness :
    ("z" ∈ ((checkForUpdates (some [pFar]) (some locO) st0).1).lastSeenPostIds ↔
      "z" ∈ st0.lastSeenPostIds ∨
        nearbyRaisedFor ((checkForUpdates (some [pFar]) (some locO) st0).2) "z") ∧
      (pFar.id ∉ ((checkForUpdates (some [pFar]) (some locO) st0).1).lastSeenPostIds ∧
        ¬ nearbyRaisedFor ((checkForUpdates (some [pFar]) (some locO) st0).2) pFar.id) ∧
      (Event.nearby pFar.id pFar.title ∈ (checkForUpdates (some [pFar]) (some locN) st0).2 ∧
        pFar.id ∈ ((checkForUpdates (some [pFar]) (some locN) st0).1).lastSeenPostIds) := by
  have hgt : ¬ getDistance locO.1 locO.2 pFar.latitude pFar.longitude ≤ 1 := by
    show ¬ getDistance 0 0 90 0 ≤ 1
    exact not_le.mpr one_lt_getDistance_pole
  have hfar : ∀ q ∈ [pFar], q.id = pFar.id →
      ¬ getDistance locO.1 locO.2 q.latitude q.longitude ≤ 1 := by
    intro q hq _
    rw [List.mem_singleton] at hq
    subst hq
    exact hgt
  have hunseen : pFar.id ∉ st0.lastSeenPostIds := by simp [st0]
  have hdistN : getDistance locN.1 locN.2 pFar.latitude pFar.longitude ≤ 1 := by
    show getDistance 90 0 90 0 ≤ 1
    rw [getDistance_self]
    norm_num
  exact ⟨(C9_marked_seen_iff_raised [pFar] locO st0 "z" pFar).1,
    (C9_marked_seen_iff_raised [pFar] locO st0 pFar.id pFar).2.1 hfar hunseen,
    (C9_marked_seen_iff_raised [pFar] locN st0 pFar.id pFar).2.2
      (List.mem_singleton.mpr rfl) hunseen (by simp [st0]) hdistN rfl⟩

/-- Witness for C10 at a concrete input: the owned post is fetched as
collected while no location fix exists. -/
theorem C10_collected_check_runs_without_location_witness :
    ("m1" ∈ stOwner.myPostIds ∧ isCollectedIn [pCollected] "m1" = true) ∧
      Event.collected "m1" (titleOf [pCollected] "m1") ∈
          (checkForUpdates (some [pCollected]) none stOwner).2 ∧
        Event.collected "m1" (titleOf [pCollected] "m1") ∈
          (checkForUpdates (some [pCollected]) (some locO) stOwner).2 := by
  have h1 : "m1" ∈ stOwner.myPostIds := by simp [stOwner]
  have h2 : isCollectedIn [pCollected] "m1" = true := rfl
  exact ⟨⟨h1, h2⟩,
    C10_collected_check_runs_without_location [pCollected] stOwner locO "m1" h1 h2⟩

/-- Witness for the amended C3 at a concrete input: fresh registries, one
fetched post, both silent first-fetch paths. -/
theorem C3_first_fetch_baseline_witness :
    (st0.lastSeenPostIds = [] ∧ st0.myPostIds = [] ∧ [pActive] ≠ [] ∧
        "p1" ∈ [pActive].map (fun p => p.id)) ∧
      (markInitialSeen (fetchPosts (some [pActive]) none 0 st0)).lastSeenPostIds =
          [pActive].map (fun p => p.id) ∧
        Event.nearby "p1" "x" ∉
          ((runTicks [] (markInitialSeen (fetchPosts (some [pActive]) none 0 st0))).2) ∧
        (checkForUpdates (some [pActive]) none st0).2 = [] ∧
        (markInitialSeen ((checkForUpdates (some [pActive]) none st0).1)).lastSeenPostIds =
          [pActive].map (fun p => p.id) := by
  have h1 : st0.lastSeenPostIds = [] := rfl
  have hmy : st0.myPostIds = [] := rfl
  have h2 : [pActive] ≠ [] := by simp
  have h3 : "p1" ∈ [pActive].map (fun p => p.id) := by simp [pActive]
  exact ⟨⟨h1, hmy, h2, h3⟩,
    C3_first_fetch_baseline st0 [pActive] none 0 [] "p1" "x" h1 hmy h2 h3⟩

/-- C3 fails on the code as originally claimed: starting from empty
registries, when the first successful non-empty fetch happens inside a poll
tick with a location fix (reachable when the mount-time fetch failed or
returned an empty list), the tick raises a nearby event for a new active
in-radius item, and the mark-seen effect afterwards skips (the SeenSet is no
longer empty), so a fetched id beyond the radius is never baselined. -/
theorem C3_first_fetch_baseline_counterexample :
    st0.lastSeenPostIds = [] ∧ st0.myPostIds = [] ∧
      Event.nearby pActive.id pActive.title ∈
        (checkForUpdates (some [pActive, pFar]) (some locO) st0).2 ∧
      (markInitialSeen
          ((checkForUpdates (some [pActive, pFar]) (some locO) st0).1)).lastSeenPostIds =
        [pActive.id] ∧
      pFar.id ∈ [pActive, pFar].map (fun p => p.id) ∧
      pFar.id ∉ (markInitialSeen
          ((checkForUpdates (some [pActive, pFar]) (some locO) st0).1)).lastSeenPostIds := by
  have hA : isNewNearby locO st0.lastSeenPostIds st0.myPostIds pActive = true := by
    unfold isNewNearby
    apply decide_eq_true
    refine ⟨by simp [st0], by simp [st0], ?_, rfl⟩
    show getDistance 0 0 0 0 ≤ 1
    rw [getDistance_self]
    norm_num
  have hF : isNewNearby locO st0.lastSeenPostIds st0.myPostIds pFar = false := by
    unfold isNewNearby
    apply decide_eq_false
    rintro ⟨-, -, hd, -⟩
    exact absurd hd (by
      show ¬ getDistance 0 0 90 0 ≤ 1
      exact not_le.mpr one_lt_getDistance_pole)
  have hnew : newlySeenList [pActive, pFar] (some locO) st0 = [pActive] := by
    unfold newlySeenList
    simp [List.filter_cons, hA, hF]
  have hseen1 : ((checkForUpdates (some [pActive, pFar]) (some locO) st0).1).lastSeenPostIds =
      [pActive.id] := by
    rw [checkForUpdates_some_seen, hnew]
    simp [st0]
  have hev : (checkForUpdates (some [pActive, pFar]) (some locO) st0).2 =
      [Event.nearby pActive.id pActive.title] := by
    rw [checkForUpdates_some_events, hnew]
    simp [collectedNowList, st0]
  have hmark : (markInitialSeen
      ((checkForUpdates (some [pActive, pFar]) (some locO) st0).1)).lastSeenPostIds =
      [pActive.id] := by
    unfold markInitialSeen
    rw [if_neg]
    · exact hseen1
    · rintro ⟨-, hlen⟩
      rw [hseen1] at hlen
      simp at hlen
  refine ⟨rfl, rfl, ?_, hmark, ?_, ?_⟩
  · rw [hev]
    exact List.mem_singleton.mpr rfl
  · simp [pActive, pFar]
  · rw [hmark]
    simp [pActive, pFar]

/-- Witness for C2 at a concrete input: one owned id, fetched as collected. -/
theorem C2_collected_once_and_released_witness :
    stOwner.myPostIds.Nodup ∧
      collectedCount ((runTicks [] stOwner).2) "m1" ≤ 1 ∧
        (isCollectedIn [pCollected] "m1" = true → "m1" ∈ stOwner.myPostIds →
          Event.collected "m1" (titleOf [pCollected] "m1") ∈
              (checkForUpdates (some [pCollected]) none stOwner).2 ∧
            "m1" ∉ ((checkForUpdates (some [pCollected]) none stOwner).1).myPostIds) ∧
        ([pCollected].find? (fun p => p.id == "m1") = none →
          (("m1" ∈ ((checkForUpdates (some [pCollected]) none stOwner).1).myPostIds ↔
              "m1" ∈ stOwner.myPostIds) ∧
            collectedCount ((checkForUpdates (some [pCollected]) none stOwner).2) "m1" = 0)) := by
  have hnd : stOwner.myPostIds.Nodup := by simp [stOwner]
  exact ⟨hnd, C2_collected_once_and_released [] stOwner "m1" [pCollected] none hnd⟩

/-- Whitespace skipping for the JSON model. -/
def skipWs : List Char → List Char
  | [] => []
  | c :: cs =>
      if c = ' ' ∨ c = '\n' ∨ c = '\t' ∨ c = '\r' then skipWs cs else c :: cs

/-- A JavaScript JSON value as produced by `JSON.parse`; number literals are
kept as their source text, since no caller in the modelled code reads the
numeric value of a registry. -/
inductive Json where
  | null
  | bool (b : Bool)
  | num (lit : String)
  | str (s : String)
  | arr (elems : List Json)
  | obj (members : List (String × Json))

/-- Value of a hexadecimal digit, for the `\u` escape. -/
def hexVal (c : Char) : Option Nat :=
  if '0' ≤ c ∧ c ≤ '9' then some (c.toNat - '0'.toNat)
  else if 'a' ≤ c ∧ c ≤ 'f' then some (c.toNat - 'a'.toNat + 10)
  else if 'A' ≤ c ∧ c ≤ 'F' then some (c.toNat - 'A'.toNat + 10)
  else none

/-- The single-character JSON string escapes; anything else after a
backslash (other than `\u`) is a syntax error, as in `JSON.parse`. -/
def escChar : Char → Option Char
  | '"' => some '"'
  | '\\' => some '\\'
  | '/' => some '/'
  | 'b' => some (Char.ofNat 8)
  | 'f' => some (Char.ofNat 12)
  | 'n' => some '\n'
  | 'r' => some '\r'
  | 't' => some '\t'
  | _ => none

/-- Body of a JSON string literal after the opening quote: reads up to the
closing quote, decoding the JSON escapes, rejecting invalid escapes and
unescaped control characters. `\u` escapes map through `Char.ofNat`;
surrogate pairing is outside the model (the persisted ids never use
escapes). -/
def parseStringBody (fuel : Nat) (cs : List Char) : Option (String × List Char) :=
  match fuel, cs with
  | 0, _ => none
  | _, [] => none
  | fuel + 1, c :: rest =>
      if c = '"' then some ("", rest)
      else if c = '\\' then
        match rest with
        | 'u' :: h1 :: h2 :: h3 :: h4 :: rest2 =>
            match hexVal h1, hexVal h2, hexVal h3, hexVal h4 with
            | some a, some b, some d, some e =>
                match parseStringBody fuel rest2 with
                | some (s, rem) =>
                    some (String.mk (Char.ofNat (((a * 16 + b) * 16 + d) * 16 + e) ::
                      s.toList), rem)
                | none => none
            | _, _, _, _ => none
        | d :: rest2 =>
            match escChar d with
            | some ec =>
                match parseStringBody fuel rest2 with
                | some (s, rem) => some (String.mk (ec :: s.toList), rem)
                | none => none
            | none => none
        | [] => none
      else if c.toNat < 32 then none
      else
        match parseStringBody fuel rest with
        | some (s, rem) => some (String.mk (c :: s.toList), rem)
        | none => none

/-- The fractional part of a JSON number: either absent or a dot followed by
at least one digit. -/
def parseFrac (cs : List Char) : Option (String × List Char) :=
  match cs with
  | '.' :: rest =>
      match rest.span Char.isDigit with
      | ([], _) => none
      | (ds, rem) => some (String.mk ('.' :: ds), rem)
  | _ => some ("", cs)

/-- The exponent part of a JSON number: either absent or `e`/`E`, an
optional sign, and at least one digit. -/
def parseExp (cs : List Char) : Option (String × List Char) :=
  match cs with
  | c :: rest =>
      if c = 'e' ∨ c = 'E' then
        match rest with
        | s :: rest2 =>
            if s = '+' ∨ s = '-' then
              match rest2.span Char.isDigit with
              | ([], _) => none
              | (ds, rem) => some (String.mk (c :: s :: ds), rem)
            else
              match rest.span Char.isDigit with
              | ([], _) => none
              | (ds, rem) => some (String.mk (c :: ds), rem)
        | [] => none
      else some ("", cs)
  | [] => some ("", [])

/-- An unsigned JSON number: integer part without a leading zero, optional
fraction and exponent. -/
def parseNumberNoSign (cs : List Char) : Option (String × List Char) :=
  match cs.span Char.isDigit with
  | (intPart, cs2) =>
      match intPart with
      | [] => none
      | '0' :: _ :: _ => none
      | _ =>
          match parseFrac cs2 with
          | none => none
          | some (fracLit, cs3) =>
              match parseExp cs3 with
              | none => none
              | some (expLit, cs4) =>
                  some (String.mk (intPart ++ (fracLit.toList ++ expLit.toList)), cs4)

/-- A JSON number with its optional leading minus sign. -/
def parseNumber (cs : List Char) : Option (String × List Char) :=
  match cs with
  | '-' :: rest =>
      match parseNumberNoSign rest with
      | some (lit, rem) => some (String.mk ('-' :: lit.toList), rem)
      | none => none
  | _ => parseNumberNoSign cs

mutual

/-- One JSON value: string, array, object, `true`, `false`, `null` or
number, after leading whitespace. The fuel only bounds the recursion and is
chosen large enough at the top level. -/
def parseValue (fuel : Nat) (cs : List Char) : Option (Json × List Char) :=
  match fuel with
  | 0 => none
  | fuel + 1 =>
      match skipWs cs with
      | [] => none
      | c :: rest =>
          if c = '"' then
            match parseStringBody (rest.length + 1) rest with
            | some (s, rem) => some (Json.str s, rem)
            | none => none
          else if c = '[' then
            match skipWs rest with
            | ']' :: rem => some (Json.arr [], rem)
            | _ =>
                match parseArrayElems fuel rest with
                | some (vs, rem) => some (Json.arr vs, rem)
                | none => none
          else if c = '\x7b' then
            match skipWs rest with
            | '\x7d' :: rem => some (Json.obj [], rem)
            | _ =>
                match parseObjMembers fuel rest with
                | some (ms, rem) => some (Json.obj ms, rem)
                | none => none
          else if c = 't' then
            match rest with
            | 'r' :: 'u' :: 'e' :: rem => some (Json.bool true, rem)
            | _ => none
          else if c = 'f' then
            match rest with
            | 'a' :: 'l' :: 's' :: 'e' :: rem => some (Json.bool false, rem)
            | _ => none
          else if c = 'n' then
            match rest with
            | 'u' :: 'l' :: 'l' :: rem => some (Json.null, rem)
            | _ => none
          else
            match parseNumber (c :: rest) with
            | some (lit, rem) => some (Json.num lit, rem)
            | none => none

/-- One or more comma-separated JSON values followed by the closing bracket
of a non-empty array. -/
def parseArrayElems (fuel : Nat) (cs : List Char) : Option (List Json × List Char) :=
  match fuel with
  | 0 => none
  | fuel + 1 =>
      match parseValue fuel cs with
      | none => none
      | some (v, rem) =>
          match skipWs rem with
          | ',' :: rem2 =>
              match parseArrayElems fuel rem2 with
              | some (vs, rem3) => some (v :: vs, rem3)
              | none => none
          | ']' :: rem2 => some ([v], rem2)
          | _ => none

/-- One or more `key : value` members followed by the closing brace of a
non-empty object. -/
def parseObjMembers (fuel : Nat) (cs : List Char) :
    Option (List (String × Json) × List Char) :=
  match fuel with
  | 0 => none
  | fuel + 1 =>
      match skipWs cs with
      | '"' :: rest =>
          match parseStringBody (rest.length + 1) rest with
          | none => none
          | some (k, rem) =>
              match skipWs rem with
              | ':' :: rem2 =>
                  match parseValue fuel rem2 with
                  | none => none
                  | some (v, rem3) =>
                      match skipWs rem3 with
                      | ',' :: rem4 =>
                          match parseObjMembers fuel rem4 with
                          | some (ms, rem5) => some ((k, v) :: ms, rem5)
                          | none => none
                      | '\x7d' :: rem4 => some ([(k, v)], rem4)
                      | _ => none
              | _ => none
      | _ => none

end

/-- Model of `JSON.parse` in the registry initializers (App.js lines
4668-4687): one JSON value with nothing but whitespace around it, `none`
standing for the thrown `SyntaxError`. The parser descends at most twice
per consumed character, so the fuel suffices for every input. -/
def parseJson (s : String) : Option Json :=
  match parseValue (2 * s.length + 2) s.toList with
  | some (v, rem) => if skipWs rem = [] then some v else none
  | none => none

theorem parseJson_accepts_number : parseJson "42" = some (Json.num "42") := rfl

theorem parseJson_accepts_number_array :
    parseJson "[1,2]" = some (Json.arr [Json.num "1", Json.num "2"]) := rfl

theorem parseJson_accepts_empty_object : parseJson "\x7b\x7d" = some (Json.obj []) := rfl

theorem parseJson_accepts_string_array :
    parseJson "[\"a\",\"b\"]" = some (Json.arr [Json.str "a", Json.str "b"]) := rfl

theorem parseJson_rejects_invalid_escape : parseJson "[\"\\x\"]" = none := rfl

theorem parseJson_decodes_escapes :
    parseJson "\"a\\n\\\"b\"" = some (Json.str "a\n\"b") := rfl

theorem parseJson_rejects_leading_zero : parseJson "01" = none := rfl

/-- The shared shape of the three id-list registry initializers of App.js
lines 4668-4675 and 4684-4687 (`ucycle_my_posts`, `ucycle_seen_posts`,
`ucycle_favorites`): `saved ? JSON.parse(saved) : []`. `none` models
`localStorage.getItem` returning null; the empty string is falsy in
JavaScript and also yields the empty array; any other string goes through
`JSON.parse` and the initializer value is whatever it returns (the app
itself only ever stores arrays of id strings, but no shape is checked). A
thrown `SyntaxError` is `Except.error` here — such a throw escapes the
`useState` initializer, so the load fails. -/
def loadIdListRegistry (saved : Option String) : Except String Json :=
  match saved with
  | none => Except.ok (Json.arr [])
  | some s =>
      if s = "" then Except.ok (Json.arr [])
      else
        match parseJson s with
        | some v => Except.ok v
        | none => Except.error "SyntaxError"

/-- The `nearbyNotificationsEnabled` initializer of App.js lines 4676-4679:
`saved === null ? true : saved === 'true'`. -/
def loadNearbyNotificationsEnabled (saved : Option String) : Bool :=
  match saved with
  | none => true
  | some s => s == "true"

/-- C5 fails on the code: a malformed persisted value does not load as the
empty set or the default flag. For the id-list registries the string `###`
is not JSON, so `JSON.parse` throws and the load fails; for the flag, the
same corrupt value loads as `false` although the documented default is
`true`. -/
theorem C5_counterexample :
    loadIdListRegistry (some "###") = Except.error "SyntaxError" ∧
      loadNearbyNotificationsEnabled (some "###") = false := by
  exact ⟨rfl, rfl⟩

/-- C5 amended: a missing (or empty, hence falsy) persisted value loads as
the defaults — empty array and true flag. A stored string that is not valid
JSON makes the id-list initializers throw, failing the load; a stored
string that is valid JSON loads as its parsed value, with no recovery to
the empty set; and the flag loads as true exactly when the stored string is
the literal `true`, so corrupt flag values load as false. -/
theorem C5_missing_defaults_malformed_fails (bad good : String) (v : Json)
    (h1 : parseJson bad = none) (h2 : bad ≠ "")
    (h3 : parseJson good = some v) (h4 : good ≠ "") :
    loadIdListRegistry none = Except.ok (Json.arr []) ∧
      loadNearbyNotificationsEnabled none = true ∧
      loadIdListRegistry (some bad) = Except.error "SyntaxError" ∧
      loadIdListRegistry (some good) = Except.ok v ∧
      loadNearbyNotificationsEnabled (some bad) = (bad == "true") := by
  refine ⟨rfl, rfl, ?_, ?_, rfl⟩
  · simp only [loadIdListRegistry, if_neg h2, h1]
  · simp only [loadIdListRegistry, if_neg h4, h3]

/-- Witness for the amended C5: the malformed input `###` fails the load,
while the valid JSON number `42` — not an id array — loads without any
recovery to the empty set. -/
theorem C5_missing_defaults_malformed_fails_witness :
    (parseJson "###" = none ∧ "###" ≠ "" ∧
        parseJson "42" = some (Json.num "42") ∧ "42" ≠ "") ∧
      loadIdListRegistry none = Except.ok (Json.arr []) ∧
        loadNearbyNotificationsEnabled none = true ∧
        loadIdListRegistry (some "###") = Except.error "SyntaxError" ∧
        loadIdListRegistry (some "42") = Except.ok (Json.num "42") ∧
        loadNearbyNotificationsEnabled (some "###") = ("###" == "true") := by
  exact ⟨⟨rfl, by decide, rfl, by decide⟩,
    C5_missing_defaults_malformed_fails "###" "42" (Json.num "42") rfl (by decide) rfl
      (by decide)⟩

end SnapScrapp
